import Mathlib

/-!
Shallow embedding of the density-fitting force provider
(`src/gromacs/applied_forces/densityfittingforceprovider.cpp`) together with
the collaborator components it consumes (Gauss transform, similarity measure,
density-fitting force, coordinate transforms).  The orchestrator
`calculateForces` and the kernel derivation `makeSpreadKernel` are translated
directly from the source file; the collaborators, whose sources are not part
of this repository snapshot, are modelled from the specification and marked
as such in their doc comments.  Real-number arithmetic stands in for the
floating-point arithmetic of the original.
-/

namespace DensityFitting

noncomputable section

/-- Three-component real vector (the source's `RVec`/`DVec`). -/
abbrev RVec := Fin 3 → ℝ

/-- Lattice cell of the 3-D density grid, one natural index per axis. -/
abbrev Cell := Fin 3 → ℕ

/-- Extents of a 3-D lattice: number of cells along each axis. -/
abbrev Extents := Fin 3 → ℕ

/-- A 3-D scalar field on the lattice; cells outside the extents are ignored
by every consumer. -/
abbrev Density := Cell → ℝ

/-- Finite set of cells lying inside the given extents. -/
def cellSet (e : Extents) : Finset Cell :=
  Fintype.piFinset fun i => Finset.range (e i)

/-- Number of lattice cells inside the extents. -/
def numVoxels (e : Extents) : ℕ := ∏ i, e i

/-- Modelled from the spec: the scale-only component of the affine
simulation-to-grid transform (the source's `ScaleCoordinates`, whose
implementation is outside this snapshot).  It multiplies every coordinate
componentwise by a fixed scale vector. -/
structure ScaleCoordinates where
  scale : RVec

/-- Componentwise application of the scale transform. -/
def ScaleCoordinates.apply (s : ScaleCoordinates) (v : RVec) : RVec :=
  fun i => s.scale i * v i

open Classical in
/-- Modelled from the spec: `ScaleCoordinates::inverseIgnoringZeroScale`
divides each component by its scale factor, except that components on axes
with zero scale are passed through unmodified (no division is performed). -/
def ScaleCoordinates.inverseIgnoringZeroScale (s : ScaleCoordinates) (v : RVec) : RVec :=
  fun i => if s.scale i = 0 then v i else v i / s.scale i

/-- Modelled from the spec: the affine simulation-to-grid transform
(the source's `TranslateAndScale`): translate, then scale. -/
structure TranslateAndScale where
  translation : RVec
  scale : RVec

/-- Application of the affine transform: first translate, then scale. -/
def TranslateAndScale.apply (t : TranslateAndScale) (v : RVec) : RVec :=
  fun i => t.scale i * (v i + t.translation i)

/-- The scale-only part of the affine transform
(the source's `TranslateAndScale::scaleOperationOnly`). -/
def TranslateAndScale.scaleOperationOnly (t : TranslateAndScale) : ScaleCoordinates :=
  ⟨t.scale⟩

/-- Kernel shape: one grid-space standard deviation per axis plus the
truncation multiplier (the source's `GaussianSpreadKernelParameters::Shape`). -/
structure Shape where
  sigma : RVec
  nSigma : ℝ

/-- Truncation window of the spreading kernel: a cell is touched by a point
exactly when, along every axis, its distance to the point is at most
`nSigma` multiples of that axis's standard deviation. -/
def inTruncation (sh : Shape) (r : RVec) (c : Cell) : Prop :=
  ∀ i, |r i - (c i : ℝ)| ≤ sh.nSigma * sh.sigma i

/-- Un-normalized separable Gaussian kernel value of a point at a cell. -/
def spreadGauss (sh : Shape) (r : RVec) (c : Cell) : ℝ :=
  ∏ i, Real.exp (-(r i - (c i : ℝ)) ^ 2 / (2 * sh.sigma i ^ 2))

open Classical in
/-- Modelled from the spec: the value a unit-amplitude point at `r`
contributes to cell `c` when spread by the Gauss transform — the separable
Gaussian inside the truncation window, exactly zero beyond it. -/
def spreadValue (sh : Shape) (r : RVec) (c : Cell) : ℝ :=
  if inTruncation sh r c then spreadGauss sh r c else 0

open Classical in
/-- Modelled from the spec: the analytic derivative of the spreading kernel
with respect to the point's grid-space coordinate on axis `mu`, restricted to
the same truncated support as the spreading itself. -/
def spreadDeriv (sh : Shape) (r : RVec) (c : Cell) (mu : Fin 3) : ℝ :=
  if inTruncation sh r c then
    ((c mu : ℝ) - r mu) / sh.sigma mu ^ 2 * spreadGauss sh r c
  else 0

/-- Modelled from the spec: the Gauss transform owning the mutable simulated
density buffer (the source's `GaussTransform3D`). -/
structure GaussTransform3D where
  extents : Extents
  shape : Shape
  data : Density

/-- Reset every buffer cell to zero (the source's `GaussTransform3D::setZero`). -/
def GaussTransform3D.setZero (g : GaussTransform3D) : GaussTransform3D :=
  { g with data := fun _ => 0 }

/-- Modelled from the spec: `GaussTransform3D::add` accumulates one weighted
point sample, adding `amplitude * spreadValue` to every cell. -/
def GaussTransform3D.add (g : GaussTransform3D) (ra : RVec × ℝ) : GaussTransform3D :=
  { g with data := fun c => g.data c + ra.2 * spreadValue g.shape ra.1 c }

/-- Sequentially spread a list of weighted points, in order, as the
per-particle loop of `calculateForces` does. -/
def GaussTransform3D.addList (g : GaussTransform3D) (l : List (RVec × ℝ)) : GaussTransform3D :=
  l.foldl GaussTransform3D.add g

/-- Density buffer obtained by rasterizing a list of weighted points into a
zeroed buffer of the given extents and kernel shape. -/
def rasterizedDensity (e : Extents) (sh : Shape) (l : List (RVec × ℝ)) : Density :=
  (GaussTransform3D.addList ⟨e, sh, fun _ => 0⟩ l).data

/-- Modelled from the spec: the similarity functional (the source's
`DensitySimilarityMeasure`), instantiated with the normalized inner-product
method; it stores the fixed reference density and the lattice extents shared
by both compared fields. -/
structure DensitySimilarityMeasure where
  extents : Extents
  ref : Density

/-- Similarity score of a simulated density against the stored reference:
voxel-count-normalized inner product. -/
def DensitySimilarityMeasure.similarity (m : DensitySimilarityMeasure) (d : Density) : ℝ :=
  (∑ c ∈ cellSet m.extents, d c * m.ref c) / (numVoxels m.extents : ℝ)

/-- Per-cell partial derivative of the similarity score with respect to the
simulated density (the source's `DensitySimilarityMeasure::gradient`); for the
inner-product method it is the normalized reference density, independent of
the simulated field. -/
def DensitySimilarityMeasure.gradient (m : DensitySimilarityMeasure) (_d : Density) : Density :=
  fun c => m.ref c / (numVoxels m.extents : ℝ)

/-- Modelled from the spec: the force back-projection component (the source's
`DensityFittingForce`), holding the kernel shape it differentiates. -/
structure DensityFittingForce where
  shape : Shape

/-- Grid-space force on one particle: its amplitude times the sum, over the
cells of the lattice, of the similarity gradient at the cell times the
analytic kernel derivative with respect to the particle's grid position. -/
def DensityFittingForce.evaluateForce (f : DensityFittingForce) (e : Extents)
    (ra : RVec × ℝ) (grad : Density) : RVec :=
  fun mu => ra.2 * ∑ c ∈ cellSet e, grad c * spreadDeriv f.shape ra.1 c mu

/-- Parameters of the density-fitting restraint consumed by the force
provider (the source's `DensityFittingParameters`); the similarity-method and
amplitude-method selectors are fixed to the single modelled method. -/
structure DensityFittingParameters where
  gaussianTransformSpreadingWidth : ℝ
  gaussianTransformSpreadingRangeInMultiplesOfWidth : ℝ
  forceConstant : ℝ

/-- Set of atoms of the restrained set local to this worker, in order
(the source's `LocalAtomSet`). -/
structure LocalAtomSet where
  localIndex : List ℕ

/-- Number of restrained atoms local to this worker. -/
def LocalAtomSet.numAtomsLocal (s : LocalAtomSet) : ℕ := s.localIndex.length

/-- Reference density field together with its extents. -/
structure DensityData where
  extents : Extents
  data : Density

/-- Generate the spread kernel from Gaussian parameters: apply the
scale-only transform to the uniform sigma vector, pass `nSigma` through
unchanged (the source's `makeSpreadKernel`, lines 71-83). -/
def makeSpreadKernel (sigma nSigma : ℝ) (scaleToLattice : ScaleCoordinates) : Shape :=
  { sigma := scaleToLattice.apply fun _ => sigma
    nSigma := nSigma }

/-- State of `DensityFittingForceProvider::Impl`. -/
structure Impl where
  parameters : DensityFittingParameters
  localAtomSet : LocalAtomSet
  spreadKernel : Shape
  gaussTransform : GaussTransform3D
  measure : DensitySimilarityMeasure
  densityFittingForce : DensityFittingForce
  transformedCoordinates : List RVec
  forces : List RVec
  amplitudeLookup : Unit
  transformationToDensityLattice : TranslateAndScale

/-- The member-initializer list of `Impl::Impl` (source lines 118-134): the
spread kernel is derived once from the physical width, the truncation
multiplier and the transform's scale-only part, and the Gauss transform, the
similarity measure and the density-fitting force are built from it and from
the reference density. -/
def Impl.init (parameters : DensityFittingParameters) (referenceDensity : DensityData)
    (transformationToDensityLattice : TranslateAndScale)
    (localAtomSet : LocalAtomSet) : Impl :=
  let spreadKernel := makeSpreadKernel parameters.gaussianTransformSpreadingWidth
    parameters.gaussianTransformSpreadingRangeInMultiplesOfWidth
    transformationToDensityLattice.scaleOperationOnly
  { parameters := parameters
    localAtomSet := localAtomSet
    spreadKernel := spreadKernel
    gaussTransform := ⟨referenceDensity.extents, spreadKernel, fun _ => 0⟩
    measure := ⟨referenceDensity.extents, referenceDensity.data⟩
    densityFittingForce := ⟨spreadKernel⟩
    transformedCoordinates := List.replicate localAtomSet.numAtomsLocal fun _ => 0
    forces := []
    amplitudeLookup := ()
    transformationToDensityLattice := transformationToDensityLattice }

/-- Configuration errors reported fatally at construction time. -/
inductive ConfigError where
  | nonPositiveWidth
  | degenerateScale
  | extentsMismatch
deriving DecidableEq

open Classical in
/-- Modelled from the spec: kernel-shape derivation validates its
preconditions at construction time — the spreading width must be positive and
the scale transform must not be zero-only (degenerate on every axis). -/
def makeSpreadKernelChecked (sigma nSigma : ℝ) (scaleToLattice : ScaleCoordinates) :
    Except ConfigError Shape :=
  if sigma ≤ 0 then .error .nonPositiveWidth
  else if scaleToLattice.scale = fun _ => 0 then .error .degenerateScale
  else .ok (makeSpreadKernel sigma nSigma scaleToLattice)

open Classical in
/-- Modelled from the spec: the similarity measure validates at construction
time that the lattice it will score (the simulated density's extents) and the
reference density share identical extents. -/
def DensitySimilarityMeasure.construct (simulatedExtents : Extents)
    (referenceDensity : DensityData) : Except ConfigError DensitySimilarityMeasure :=
  if simulatedExtents = referenceDensity.extents then
    .ok ⟨referenceDensity.extents, referenceDensity.data⟩
  else .error .extentsMismatch

/-- Validating construction of the force provider: runs the collaborator
constructors' configuration checks in initializer-list order (kernel shape
first, then the similarity measure on the Gauss-transform lattice, which the
source wires to the reference density's extents), and only on success yields
the constructed state.  No force evaluation can run before this returns. -/
def Impl.construct (parameters : DensityFittingParameters) (referenceDensity : DensityData)
    (transformationToDensityLattice : TranslateAndScale)
    (localAtomSet : LocalAtomSet) : Except ConfigError Impl := do
  let _kernel ← makeSpreadKernelChecked parameters.gaussianTransformSpreadingWidth
    parameters.gaussianTransformSpreadingRangeInMultiplesOfWidth
    transformationToDensityLattice.scaleOperationOnly
  let _measure ← DensitySimilarityMeasure.construct referenceDensity.extents referenceDensity
  .ok (Impl.init parameters referenceDensity transformationToDensityLattice localAtomSet)

/-- Per-evaluation input (the source's `ForceProviderInput`): the global
position array, the amplitude-lookup collaborator as a pure function of the
global atom index, the parallel-run flag `PAR(cr)`, and — standing in for the
effect of the `gmx_sumf` collective on this worker — the elementwise sum of
the density buffers rasterized by all other workers. -/
structure ForceProviderInput where
  x : ℕ → RVec
  amplitude : ℕ → ℝ
  par : Bool
  peerDensity : Density

/-- Per-evaluation output (the source's `ForceProviderOutput`): the host's
per-particle force buffer indexed by global atom index, and the energy
accumulator indexed by energy-term slot. -/
structure ForceProviderOutput where
  force : ℕ → RVec
  term : ℕ → ℝ

/-- Fixed energy-term slot the provider accumulates into (the source's
`F_COM_PULL`); the concrete numeric value of the slot is immaterial. -/
def F_COM_PULL : ℕ := 0

/-- Observable steps of one evaluation, in program order. -/
inductive CalcEvent where
  | pickCoordinates
  | transformCoordinates
  | zeroBuffer
  | spreadAtom
  | reduceBuffer
  | computeGradient
  | computeForces
  | inverseScaleForces
  | accumulateForces
  | accumulateEnergy
deriving DecidableEq

/-- Result of one `calculateForces` call: the mutated provider state, the
mutated host output, and the trace of steps the call performed. -/
structure CalcResult where
  impl : Impl
  output : ForceProviderOutput
  events : List CalcEvent

/-- The per-particle force accumulation loop (source lines 191-197): walk the
local index list and the force list in lockstep, adding
`forceConstant * force` into the host buffer at each global index. -/
def addForceContributions (k : ℝ) : List (ℕ × RVec) → (ℕ → RVec) → (ℕ → RVec)
  | [], F => F
  | (i, f) :: rest, F =>
    addForceContributions k rest (Function.update F i fun mu => F i mu + k * f mu)

/-- The simulation-space per-particle forces (source lines 177-189): evaluate
the grid-space density-fitting force for each transformed coordinate and
amplitude, then map the whole sequence back through
`inverseIgnoringZeroScale`. -/
def simulationForces (impl : Impl) (transformed : List RVec) (amplitudes : List ℝ)
    (densityDerivative : Density) : List RVec :=
  ((transformed.zip amplitudes).map fun ra =>
      impl.densityFittingForce.evaluateForce impl.measure.extents ra densityDerivative).map
    impl.transformationToDensityLattice.scaleOperationOnly.inverseIgnoringZeroScale

/-- Translation of `DensityFittingForceProvider::Impl::calculateForces`
(source lines 136-203).  A worker with no local restrained atoms returns
immediately with untouched outputs; otherwise the call picks and transforms
the local coordinates, zeroes and fills the density buffer, sums the buffers
across workers when the run is parallel, computes the similarity gradient and
the per-particle forces, maps them to simulation space, and accumulates
`forceConstant * force` into the host force buffer and
`-similarity * forceConstant` into the `F_COM_PULL` energy slot. -/
def calculateForces (impl : Impl) (inp : ForceProviderInput)
    (out : ForceProviderOutput) : CalcResult :=
  if impl.localAtomSet.numAtomsLocal = 0 then
    ⟨impl, out, []⟩
  else
    let transformed := impl.localAtomSet.localIndex.map fun index =>
      impl.transformationToDensityLattice.apply (inp.x index)
    let amplitudes := impl.localAtomSet.localIndex.map inp.amplitude
    let spread := (impl.gaussTransform.setZero).addList (transformed.zip amplitudes)
    let reduced := if inp.par then
        { spread with data := fun c => spread.data c + inp.peerDensity c }
      else spread
    let densityDerivative := impl.measure.gradient reduced.data
    let forces := simulationForces impl transformed amplitudes densityDerivative
    let newForce := addForceContributions impl.parameters.forceConstant
      (impl.localAtomSet.localIndex.zip forces) out.force
    let similarity := impl.measure.similarity reduced.data
    let energy := -similarity * impl.parameters.forceConstant
    { impl := { impl with
        gaussTransform := reduced
        transformedCoordinates := transformed
        forces := forces }
      output := { force := newForce
                  term := Function.update out.term F_COM_PULL (out.term F_COM_PULL + energy) }
      events := [.pickCoordinates, .transformCoordinates, .zeroBuffer]
        ++ List.replicate impl.localAtomSet.numAtomsLocal .spreadAtom
        ++ (if inp.par then [.reduceBuffer] else [])
        ++ [.computeGradient, .computeForces, .inverseScaleForces,
            .accumulateForces, .accumulateEnergy] }

/-- Energy this evaluation adds to the provider's energy slot. -/
def addedEnergy (impl : Impl) (inp : ForceProviderInput) (out : ForceProviderOutput) : ℝ :=
  (calculateForces impl inp out).output.term F_COM_PULL - out.term F_COM_PULL

/-- Concrete parameters used to exercise the theorems: spreading width 1,
truncation multiplier 3, force constant 1. -/
def exampleParams : DensityFittingParameters := ⟨1, 3, 1⟩

/-- Concrete reference density: a single-cell lattice holding the value 1. -/
def exampleRef : DensityData := ⟨fun _ => 1, fun _ => 1⟩

/-- Concrete affine transform: no translation, scale factor 2 on every axis. -/
def exampleTransform : TranslateAndScale := ⟨fun _ => 0, fun _ => 2⟩

/-- Worker holding no restrained atoms. -/
def emptyAtomSet : LocalAtomSet := ⟨[]⟩

/-- Worker holding the single restrained atom with global index 0. -/
def oneAtomSet : LocalAtomSet := ⟨[0]⟩

/-- Concrete position for the restrained atom: grid position (1,0,0) after
the scale-by-2 transform. -/
def examplePos : RVec := ![2⁻¹, 0, 0]

/-- Concrete per-evaluation input: every atom at `examplePos`, unit
amplitudes, single-worker run, no peer contribution. -/
def exampleInput : ForceProviderInput := ⟨fun _ => examplePos, fun _ => 1, false, fun _ => 0⟩

/-- Concrete zeroed host output buffers. -/
def exampleOutput : ForceProviderOutput := ⟨fun _ => fun _ => 0, fun _ => 0⟩

/-- Concrete provider state with one local restrained atom. -/
def exampleImpl : Impl := Impl.init exampleParams exampleRef exampleTransform oneAtomSet

/-- Concrete provider state with no local restrained atoms. -/
def exampleEmptyImpl : Impl := Impl.init exampleParams exampleRef exampleTransform emptyAtomSet

/-- Weighted grid-space point samples a worker holding the given slice of
the restrained index list rasterizes: the transformed coordinates paired with
the looked-up amplitudes, in slice order. -/
def workerPoints (t : TranslateAndScale) (x : ℕ → RVec) (amp : ℕ → ℝ)
    (slice : List ℕ) : List (RVec × ℝ) :=
  (slice.map fun index => t.apply (x index)).zip (slice.map amp)

/-- Kernel shape a provider constructed from these parameters and transform
derives once at construction. -/
def kernelOf (p : DensityFittingParameters) (t : TranslateAndScale) : Shape :=
  makeSpreadKernel p.gaussianTransformSpreadingWidth
    p.gaussianTransformSpreadingRangeInMultiplesOfWidth t.scaleOperationOnly

/-- Modelled from the spec: the contribution the `gmx_sumf` collective
delivers to worker `w` — the elementwise sum of the density buffers
rasterized by every other worker of the run. -/
def multiWorkerPeer (p : DensityFittingParameters) (ref : DensityData)
    (t : TranslateAndScale) (x : ℕ → RVec) (amp : ℕ → ℝ) {n : ℕ}
    (slices : Fin n → List ℕ) (w : Fin n) : Density :=
  fun c => ∑ w' ∈ Finset.univ.erase w,
    rasterizedDensity ref.extents (kernelOf p t) (workerPoints t x amp (slices w')) c

/-- Per-evaluation input seen by worker `w` of a parallel run whose
restrained set is split into the given slices. -/
def multiWorkerInput (p : DensityFittingParameters) (ref : DensityData)
    (t : TranslateAndScale) (x : ℕ → RVec) (amp : ℕ → ℝ) {n : ℕ}
    (slices : Fin n → List ℕ) (w : Fin n) : ForceProviderInput :=
  ⟨x, amp, true, multiWorkerPeer p ref t x amp slices w⟩

/-- Density buffer obtained by rasterizing the complete restrained set on a
single worker. -/
def allWorkersDensity (p : DensityFittingParameters) (ref : DensityData)
    (t : TranslateAndScale) (x : ℕ → RVec) (amp : ℕ → ℝ) {n : ℕ}
    (slices : Fin n → List ℕ) : Density :=
  rasterizedDensity ref.extents (kernelOf p t)
    (workerPoints t x amp (List.ofFn slices).flatten)

/-- Concrete two-worker split of a two-atom restrained set. -/
def exampleSlices : Fin 2 → List ℕ := ![[0], [1]]

/-- Concrete parameters with a non-positive (zero) spreading width. -/
def badWidthParams : DensityFittingParameters := ⟨0, 3, 1⟩

/-- Concrete zero-only (degenerate on every axis) scale transform. -/
def zeroScaleTransform : TranslateAndScale := ⟨fun _ => 0, fun _ => 0⟩

/-- Concrete extents differing from `exampleRef`'s extents. -/
def mismatchedExtents : Extents := fun _ => 2

/-- Concrete scale transform with a zero factor on the second axis only. -/
def exampleScale : ScaleCoordinates := ⟨![2, 0, 3]⟩

/-- Concrete vector the round-trip theorems are applied to. -/
def exampleVec : RVec := ![5, 7, 11]

/-- Global position array with the coordinate of atom `g` along axis `mu`
replaced by `tt`; all other atoms and components keep their positions. -/
def perturbPositions (x : ℕ → RVec) (g : ℕ) (mu : Fin 3) (tt : ℝ) : ℕ → RVec :=
  Function.update x g (Function.update (x g) mu tt)

/-- Per-evaluation input with the position of atom `g` perturbed along `mu`. -/
def perturbInput (inp : ForceProviderInput) (g : ℕ) (mu : Fin 3) (tt : ℝ) :
    ForceProviderInput :=
  { inp with x := perturbPositions inp.x g mu tt }

/-- Energy contribution of one evaluation, as a function of the coordinate of
atom `g` along axis `mu` (all other inputs held fixed). -/
def energyAlong (impl : Impl) (inp : ForceProviderInput) (out : ForceProviderOutput)
    (g : ℕ) (mu : Fin 3) : ℝ → ℝ :=
  fun tt => addedEnergy impl (perturbInput inp g mu tt) out

/-- Force component the evaluation actually adds into the host buffer for the
`j`-th local restrained particle: the force constant times component `mu` of
the `j`-th computed simulation-space force. -/
def appliedForce (impl : Impl) (inp : ForceProviderInput) (out : ForceProviderOutput)
    (j : ℕ) (mu : Fin 3) : ℝ :=
  impl.parameters.forceConstant *
    ((calculateForces impl inp out).impl.forces.getD j fun _ => 0) mu

end

end DensityFitting

namespace DensityFitting

noncomputable section

lemma GaussTransform3D.add_shape (g : GaussTransform3D) (ra : RVec × ℝ) :
    (g.add ra).shape = g.shape := rfl

lemma GaussTransform3D.addList_shape (l : List (RVec × ℝ)) (g : GaussTransform3D) :
    (g.addList l).shape = g.shape := by
  induction l generalizing g with
  | nil => rfl
  | cons a l ih => simpa [GaussTransform3D.addList] using ih (g.add a)

lemma GaussTransform3D.addList_extents (l : List (RVec × ℝ)) (g : GaussTransform3D) :
    (g.addList l).extents = g.extents := by
  induction l generalizing g with
  | nil => rfl
  | cons a l ih => simpa [GaussTransform3D.addList] using ih (g.add a)

lemma GaussTransform3D.addList_data (l : List (RVec × ℝ)) (g : GaussTransform3D) (c : Cell) :
    (g.addList l).data c = g.data c + (l.map fun ra => ra.2 * spreadValue g.shape ra.1 c).sum := by
  induction l generalizing g with
  | nil => simp [GaussTransform3D.addList]
  | cons a l ih =>
    simp only [GaussTransform3D.addList, List.foldl_cons] at *
    rw [ih (g.add a)]
    simp [GaussTransform3D.add, add_assoc]

lemma rasterizedDensity_eq_sum (e : Extents) (sh : Shape) (l : List (RVec × ℝ)) (c : Cell) :
    rasterizedDensity e sh l c = (l.map fun ra => ra.2 * spreadValue sh ra.1 c).sum := by
  simp [rasterizedDensity, GaussTransform3D.addList_data]

lemma rasterizedDensity_append (e : Extents) (sh : Shape) (l₁ l₂ : List (RVec × ℝ)) (c : Cell) :
    rasterizedDensity e sh (l₁ ++ l₂) c =
      rasterizedDensity e sh l₁ c + rasterizedDensity e sh l₂ c := by
  simp [rasterizedDensity_eq_sum]

lemma rasterizedDensity_join (e : Extents) (sh : Shape) (slices : List (List (RVec × ℝ)))
    (c : Cell) :
    (slices.map fun sl => rasterizedDensity e sh sl c).sum =
      rasterizedDensity e sh slices.flatten c := by
  induction slices with
  | nil => simp [rasterizedDensity_eq_sum]
  | cons sl slices ih => simp [List.flatten, rasterizedDensity_append, ih]

end

end DensityFitting

namespace DensityFitting

noncomputable section

lemma exampleImpl_numAtomsLocal : exampleImpl.localAtomSet.numAtomsLocal = 1 := rfl

lemma exampleEmptyImpl_numAtomsLocal : exampleEmptyImpl.localAtomSet.numAtomsLocal = 0 := rfl

/-- Claim C4: an evaluation on a worker whose local restrained particle set is
empty leaves the host's force output buffer and energy accumulator (the whole
host output) completely unchanged. -/
theorem claim_C4_zero_particle_noop (impl : Impl) (inp : ForceProviderInput)
    (out : ForceProviderOutput) (h : impl.localAtomSet.numAtomsLocal = 0) :
    (calculateForces impl inp out).output = out := by
  simp [calculateForces, h]

/-- Witness for C4 at a concrete zero-atom worker. -/
theorem claim_C4_witness :
    exampleEmptyImpl.localAtomSet.numAtomsLocal = 0 ∧
      (calculateForces exampleEmptyImpl exampleInput exampleOutput).output = exampleOutput :=
  ⟨rfl, claim_C4_zero_particle_noop exampleEmptyImpl exampleInput exampleOutput rfl⟩

/-- Claim C2: an evaluation with at least one local restrained particle adds
exactly `-similarity * forceConstant` — the similarity evaluated on the
post-reduction density buffer — to the `F_COM_PULL` energy slot, and leaves
every other energy slot unchanged. -/
theorem claim_C2_energy_accumulation (impl : Impl) (inp : ForceProviderInput)
    (out : ForceProviderOutput) (h : impl.localAtomSet.numAtomsLocal ≠ 0) :
    ((calculateForces impl inp out).output.term F_COM_PULL =
        out.term F_COM_PULL +
          -(impl.measure.similarity (calculateForces impl inp out).impl.gaussTransform.data) *
            impl.parameters.forceConstant) ∧
      ∀ j, j ≠ F_COM_PULL → (calculateForces impl inp out).output.term j = out.term j := by
  constructor
  · simp [calculateForces, h]
  · intro j hj
    simp [calculateForces, h, Function.update_noteq hj]

/-- Witness for C2 at a concrete one-atom worker. -/
theorem claim_C2_witness :
    exampleImpl.localAtomSet.numAtomsLocal ≠ 0 ∧
      ((calculateForces exampleImpl exampleInput exampleOutput).output.term F_COM_PULL =
          exampleOutput.term F_COM_PULL +
            -(exampleImpl.measure.similarity
                (calculateForces exampleImpl exampleInput exampleOutput).impl.gaussTransform.data) *
              exampleImpl.parameters.forceConstant) ∧
        ∀ j, j ≠ F_COM_PULL →
          (calculateForces exampleImpl exampleInput exampleOutput).output.term j =
            exampleOutput.term j := by
  refine ⟨?_, claim_C2_energy_accumulation exampleImpl exampleInput exampleOutput ?_⟩ <;>
    simp [exampleImpl_numAtomsLocal]

end

end DensityFitting

namespace DensityFitting

noncomputable section

/-- Claim C9: the Gauss transform and the density-fitting force object are both
constructed from the single kernel shape derived once at construction; that
shape applies the scale-only transform to the uniform sigma vector and passes
the truncation multiplier through unchanged; and one evaluation step leaves
all three stored copies of the shape unchanged, for any state. -/
theorem claim_C9_kernel_shape_identity :
    (∀ (p : DensityFittingParameters) (ref : DensityData) (t : TranslateAndScale)
        (las : LocalAtomSet),
      (Impl.init p ref t las).spreadKernel =
          makeSpreadKernel p.gaussianTransformSpreadingWidth
            p.gaussianTransformSpreadingRangeInMultiplesOfWidth t.scaleOperationOnly ∧
        (Impl.init p ref t las).gaussTransform.shape = (Impl.init p ref t las).spreadKernel ∧
        (Impl.init p ref t las).densityFittingForce.shape = (Impl.init p ref t las).spreadKernel) ∧
      (∀ (sigma nSigma : ℝ) (sc : ScaleCoordinates),
        makeSpreadKernel sigma nSigma sc = ⟨sc.apply fun _ => sigma, nSigma⟩) ∧
      ∀ (impl : Impl) (inp : ForceProviderInput) (out : ForceProviderOutput),
        (calculateForces impl inp out).impl.spreadKernel = impl.spreadKernel ∧
          (calculateForces impl inp out).impl.gaussTransform.shape =
            impl.gaussTransform.shape ∧
          (calculateForces impl inp out).impl.densityFittingForce.shape =
            impl.densityFittingForce.shape := by
  refine ⟨fun p ref t las => ⟨rfl, rfl, rfl⟩, fun sigma nSigma sc => rfl, fun impl inp out => ?_⟩
  by_cases h : impl.localAtomSet.numAtomsLocal = 0
  · simp [calculateForces, h]
  · refine ⟨by simp [calculateForces, h], ?_, by simp [calculateForces, h]⟩
    by_cases hp : inp.par <;>
      simp [calculateForces, h, hp, GaussTransform3D.addList_shape, GaussTransform3D.setZero]

/-- Claim C6: in a parallel run, a worker holding local restrained particles
performs, among the events of one evaluation, exactly one buffer reduction
and exactly one gradient computation, in that order — so every participating
worker calls the collective the same number of times, once, before computing
the similarity gradient. -/
theorem claim_C6_reduction_called_once_before_gradient (impl : Impl)
    (inp : ForceProviderInput) (out : ForceProviderOutput)
    (h : impl.localAtomSet.numAtomsLocal ≠ 0) (hp : inp.par = true) :
    ((calculateForces impl inp out).events.filter fun e =>
        decide (e = CalcEvent.reduceBuffer ∨ e = CalcEvent.computeGradient)) =
        [CalcEvent.reduceBuffer, CalcEvent.computeGradient] ∧
      (calculateForces impl inp out).events.count CalcEvent.reduceBuffer = 1 := by
  constructor <;>
    simp [calculateForces, h, hp, List.filter_append, List.filter_replicate,
      List.count_replicate]

/-- Witness for C6 at a concrete one-atom worker in a parallel run. -/
theorem claim_C6_witness :
    exampleImpl.localAtomSet.numAtomsLocal ≠ 0 ∧
      (⟨exampleInput.x, exampleInput.amplitude, true, exampleInput.peerDensity⟩ :
          ForceProviderInput).par = true ∧
      (((calculateForces exampleImpl
            ⟨exampleInput.x, exampleInput.amplitude, true, exampleInput.peerDensity⟩
            exampleOutput).events.filter fun e =>
          decide (e = CalcEvent.reduceBuffer ∨ e = CalcEvent.computeGradient)) =
          [CalcEvent.reduceBuffer, CalcEvent.computeGradient] ∧
        (calculateForces exampleImpl
            ⟨exampleInput.x, exampleInput.amplitude, true, exampleInput.peerDensity⟩
            exampleOutput).events.count CalcEvent.reduceBuffer = 1) := by
  refine ⟨by simp [exampleImpl_numAtomsLocal], rfl,
    claim_C6_reduction_called_once_before_gradient exampleImpl _ exampleOutput
      (by simp [exampleImpl_numAtomsLocal]) rfl⟩

end

end DensityFitting

namespace DensityFitting

noncomputable section

/-- Claim C8: mapping a grid-space force back to simulation space with
`inverseIgnoringZeroScale` leaves components on zero-scale axes untouched,
divides components on non-zero-scale axes by the scale factor, and therefore
recovers exactly the original component after a forward scale on every
non-degenerate axis. -/
theorem claim_C8_inverse_scale_roundtrip (s : ScaleCoordinates) (v w : RVec) (i : Fin 3) :
    (s.scale i = 0 → s.inverseIgnoringZeroScale w i = w i) ∧
      (s.scale i ≠ 0 → s.inverseIgnoringZeroScale w i = w i / s.scale i) ∧
      (s.scale i ≠ 0 → s.inverseIgnoringZeroScale (s.apply v) i = v i) := by
  refine ⟨fun h => ?_, fun h => ?_, fun h => ?_⟩ <;>
    simp [ScaleCoordinates.inverseIgnoringZeroScale, ScaleCoordinates.apply, h,
      mul_div_cancel_left₀]

/-- Witness for C8 on a transform with a zero axis and a non-zero axis. -/
theorem claim_C8_witness :
    (exampleScale.scale 1 = 0 ∧
        exampleScale.inverseIgnoringZeroScale exampleVec 1 = exampleVec 1) ∧
      exampleScale.scale 0 ≠ 0 ∧
        exampleScale.inverseIgnoringZeroScale exampleVec 0 = exampleVec 0 / exampleScale.scale 0 ∧
        exampleScale.inverseIgnoringZeroScale (exampleScale.apply exampleVec) 0 = exampleVec 0 := by
  have h1 : exampleScale.scale 1 = 0 := by simp [exampleScale]
  have h0 : exampleScale.scale 0 ≠ 0 := by simp [exampleScale]
  exact ⟨⟨h1, (claim_C8_inverse_scale_roundtrip exampleScale exampleVec exampleVec 1).1 h1⟩,
    h0, (claim_C8_inverse_scale_roundtrip exampleScale exampleVec exampleVec 0).2.1 h0,
    (claim_C8_inverse_scale_roundtrip exampleScale exampleVec exampleVec 0).2.2 h0⟩

/-- Claim C5: summing the rasterizations of any split of the restrained set into
slices reproduces, cell by cell, the rasterization of the whole set on one
worker; a single-worker evaluation skips the reduction and its final buffer
is exactly its own rasterization; a parallel evaluation's final buffer is its
own rasterization plus the peer contribution. -/
theorem claim_C5_reduction_correctness :
    (∀ (e : Extents) (sh : Shape) (slices : List (List (RVec × ℝ))) (c : Cell),
      (slices.map fun sl => rasterizedDensity e sh sl c).sum =
        rasterizedDensity e sh slices.flatten c) ∧
      (∀ (impl : Impl) (inp : ForceProviderInput) (out : ForceProviderOutput),
        impl.localAtomSet.numAtomsLocal ≠ 0 → inp.par = false →
          (calculateForces impl inp out).impl.gaussTransform.data =
            rasterizedDensity impl.gaussTransform.extents impl.gaussTransform.shape
              ((impl.localAtomSet.localIndex.map fun index =>
                  impl.transformationToDensityLattice.apply (inp.x index)).zip
                (impl.localAtomSet.localIndex.map inp.amplitude))) ∧
      ∀ (impl : Impl) (inp : ForceProviderInput) (out : ForceProviderOutput) (c : Cell),
        impl.localAtomSet.numAtomsLocal ≠ 0 → inp.par = true →
          (calculateForces impl inp out).impl.gaussTransform.data c =
            rasterizedDensity impl.gaussTransform.extents impl.gaussTransform.shape
              ((impl.localAtomSet.localIndex.map fun index =>
                  impl.transformationToDensityLattice.apply (inp.x index)).zip
                (impl.localAtomSet.localIndex.map inp.amplitude)) c + inp.peerDensity c := by
  refine ⟨rasterizedDensity_join, fun impl inp out h hp => ?_, fun impl inp out c h hp => ?_⟩
  · simp [calculateForces, h, hp, rasterizedDensity, GaussTransform3D.setZero]
  · simp [calculateForces, h, hp, rasterizedDensity, GaussTransform3D.setZero]

/-- Witness for C5: a concrete split together with a concrete single-worker
evaluation. -/
theorem claim_C5_witness :
    ((([[(examplePos, (1 : ℝ))], [(examplePos, (2 : ℝ))]] :
          List (List (RVec × ℝ))).map fun sl =>
        rasterizedDensity exampleRef.extents exampleImpl.spreadKernel sl fun _ => 0).sum =
        rasterizedDensity exampleRef.extents exampleImpl.spreadKernel
          [[(examplePos, (1 : ℝ))], [(examplePos, (2 : ℝ))]].flatten fun _ => 0) ∧
      exampleImpl.localAtomSet.numAtomsLocal ≠ 0 ∧ exampleInput.par = false ∧
        (calculateForces exampleImpl exampleInput exampleOutput).impl.gaussTransform.data =
          rasterizedDensity exampleImpl.gaussTransform.extents
            exampleImpl.gaussTransform.shape
            ((exampleImpl.localAtomSet.localIndex.map fun index =>
                exampleImpl.transformationToDensityLattice.apply (exampleInput.x index)).zip
              (exampleImpl.localAtomSet.localIndex.map exampleInput.amplitude)) := by
  refine ⟨claim_C5_reduction_correctness.1 _ _ _ _, by simp [exampleImpl_numAtomsLocal], rfl,
    claim_C5_reduction_correctness.2.1 exampleImpl exampleInput exampleOutput
      (by simp [exampleImpl_numAtomsLocal]) rfl⟩

/-- Claim C7: a non-positive spreading width, a zero-only scale transform, and
mismatched extents between the similarity inputs are each detected and
reported as a fatal configuration error by the (validating) construction,
before any force evaluation can run. -/
theorem claim_C7_construction_errors :
    (∀ (p : DensityFittingParameters) (ref : DensityData) (t : TranslateAndScale)
        (las : LocalAtomSet), p.gaussianTransformSpreadingWidth ≤ 0 →
      ∃ err, Impl.construct p ref t las = .error err) ∧
      (∀ (p : DensityFittingParameters) (ref : DensityData) (t : TranslateAndScale)
          (las : LocalAtomSet), t.scale = (fun _ => 0) →
        ∃ err, Impl.construct p ref t las = .error err) ∧
      ∀ (simulatedExtents : Extents) (ref : DensityData), simulatedExtents ≠ ref.extents →
        ∃ err, DensitySimilarityMeasure.construct simulatedExtents ref = .error err := by
  refine ⟨fun p ref t las h => ?_, fun p ref t las h => ?_, fun simE ref h => ?_⟩
  · exact ⟨ConfigError.nonPositiveWidth, by
      simp [Impl.construct, makeSpreadKernelChecked, h, Bind.bind, Except.bind]⟩
  · by_cases hw : p.gaussianTransformSpreadingWidth ≤ 0
    · exact ⟨ConfigError.nonPositiveWidth, by
        simp [Impl.construct, makeSpreadKernelChecked, hw, Bind.bind, Except.bind]⟩
    · exact ⟨ConfigError.degenerateScale, by
        simp [Impl.construct, makeSpreadKernelChecked, hw, TranslateAndScale.scaleOperationOnly,
          h, Bind.bind, Except.bind]⟩
  · exact ⟨ConfigError.extentsMismatch, by simp [DensitySimilarityMeasure.construct, h]⟩

/-- Witness for C7 at a zero width, a zero-only transform, and a concrete
extents mismatch. -/
theorem claim_C7_witness :
    (badWidthParams.gaussianTransformSpreadingWidth ≤ 0 ∧
        ∃ err, Impl.construct badWidthParams exampleRef exampleTransform oneAtomSet =
          .error err) ∧
      (zeroScaleTransform.scale = (fun _ => 0) ∧
        ∃ err, Impl.construct exampleParams exampleRef zeroScaleTransform oneAtomSet =
          .error err) ∧
      mismatchedExtents ≠ exampleRef.extents ∧
        ∃ err, DensitySimilarityMeasure.construct mismatchedExtents exampleRef = .error err := by
  have hw : badWidthParams.gaussianTransformSpreadingWidth ≤ 0 := le_refl 0
  have hz : zeroScaleTransform.scale = (fun _ => 0) := rfl
  have hm : mismatchedExtents ≠ exampleRef.extents := by
    intro h
    exact absurd (congrFun h 0) (by decide)
  exact ⟨⟨hw, claim_C7_construction_errors.1 badWidthParams exampleRef exampleTransform
      oneAtomSet hw⟩,
    ⟨hz, claim_C7_construction_errors.2.1 exampleParams exampleRef zeroScaleTransform
      oneAtomSet hz⟩,
    hm, claim_C7_construction_errors.2.2 mismatchedExtents exampleRef hm⟩

end

end DensityFitting

namespace DensityFitting

noncomputable section

lemma addForceContributions_not_mem (k : ℝ) :
    ∀ (l : List (ℕ × RVec)) (F : ℕ → RVec) (i : ℕ), i ∉ l.map Prod.fst →
      addForceContributions k l F i = F i := by
  intro l
  induction l with
  | nil => intro F i _; rfl
  | cons a l ih =>
    intro F i hi
    simp only [List.map_cons, List.mem_cons, not_or] at hi
    obtain ⟨a1, a2⟩ := a
    rw [addForceContributions, ih _ i hi.2, Function.update_noteq hi.1]

lemma addForceContributions_mem (k : ℝ) :
    ∀ (l : List (ℕ × RVec)) (F : ℕ → RVec) (i : ℕ) (f : RVec), (i, f) ∈ l →
      (l.map Prod.fst).Nodup →
      ∀ mu, addForceContributions k l F i mu = F i mu + k * f mu := by
  intro l
  induction l with
  | nil => intro F i f hf; simp at hf
  | cons a l ih =>
    intro F i f hf hnd mu
    obtain ⟨a1, a2⟩ := a
    simp only [List.map_cons, List.nodup_cons] at hnd
    rcases List.mem_cons.mp hf with heq | hmem
    · obtain ⟨rfl, rfl⟩ := Prod.mk.injEq .. ▸ heq
      have hni : i ∉ l.map Prod.fst := by
        injection heq with h1 h2
        exact h1 ▸ hnd.1
      rw [addForceContributions, addForceContributions_not_mem k l _ i hni,
        Function.update_same]
    · have hne : i ≠ a1 := by
        intro h
        exact hnd.1 (h ▸ List.mem_map_of_mem Prod.fst hmem)
      rw [addForceContributions, ih _ i f hmem hnd.2 mu, Function.update_noteq hne]

lemma simulationForces_length (impl : Impl) (transformed : List RVec)
    (amplitudes : List ℝ) (d : Density) (h : transformed.length = amplitudes.length) :
    (simulationForces impl transformed amplitudes d).length = transformed.length := by
  simp [simulationForces, h]

lemma calculateForces_force_eq (impl : Impl) (inp : ForceProviderInput)
    (out : ForceProviderOutput) (h : impl.localAtomSet.numAtomsLocal ≠ 0) :
    (calculateForces impl inp out).output.force =
      addForceContributions impl.parameters.forceConstant
        (impl.localAtomSet.localIndex.zip (calculateForces impl inp out).impl.forces)
        out.force := by
  have hne : impl.localAtomSet.localIndex ≠ [] := by
    simpa [LocalAtomSet.numAtomsLocal, List.length_eq_zero] using h
  simp [calculateForces, LocalAtomSet.numAtomsLocal, hne]

lemma calculateForces_forces_length (impl : Impl) (inp : ForceProviderInput)
    (out : ForceProviderOutput) (h : impl.localAtomSet.numAtomsLocal ≠ 0) :
    (calculateForces impl inp out).impl.forces.length = impl.localAtomSet.numAtomsLocal := by
  have hne : impl.localAtomSet.localIndex ≠ [] := by
    simpa [LocalAtomSet.numAtomsLocal, List.length_eq_zero] using h
  simp [calculateForces, LocalAtomSet.numAtomsLocal, hne, simulationForces]

/-- Claim C3: with distinct local indices, an evaluation adds
`forceConstant * (i-th computed simulation-space force)` to the host force
output at the i-th entry of the restrained index list, for every component,
preserving the index correspondence. -/
theorem claim_C3_force_index_correspondence (impl : Impl) (inp : ForceProviderInput)
    (out : ForceProviderOutput) (j : ℕ) (hj : j < impl.localAtomSet.numAtomsLocal)
    (hnd : impl.localAtomSet.localIndex.Nodup) (mu : Fin 3) :
    (calculateForces impl inp out).output.force (impl.localAtomSet.localIndex.getD j 0) mu =
      out.force (impl.localAtomSet.localIndex.getD j 0) mu +
        impl.parameters.forceConstant *
          ((calculateForces impl inp out).impl.forces.getD j fun _ => 0) mu := by
  have h : impl.localAtomSet.numAtomsLocal ≠ 0 := by
    intro h0
    rw [h0] at hj
    exact Nat.not_lt_zero j hj
  have hlen : (calculateForces impl inp out).impl.forces.length =
      impl.localAtomSet.numAtomsLocal := calculateForces_forces_length impl inp out h
  have hnum : impl.localAtomSet.numAtomsLocal = impl.localAtomSet.localIndex.length := rfl
  rw [calculateForces_force_eq impl inp out h]
  have hjl : j < impl.localAtomSet.localIndex.length := hj
  have hjf : j < (calculateForces impl inp out).impl.forces.length := by omega
  have hjz : j < (impl.localAtomSet.localIndex.zip (calculateForces impl inp out).impl.forces).length := by
    rw [List.length_zip]
    omega
  have hmem : (impl.localAtomSet.localIndex.getD j 0,
      (calculateForces impl inp out).impl.forces.getD j fun _ => 0) ∈
      impl.localAtomSet.localIndex.zip (calculateForces impl inp out).impl.forces := by
    rw [List.getD_eq_getElem _ _ hjl, List.getD_eq_getElem _ _ hjf]
    have hz : (impl.localAtomSet.localIndex.zip (calculateForces impl inp out).impl.forces)[j] =
        (impl.localAtomSet.localIndex[j], (calculateForces impl inp out).impl.forces[j]) :=
      List.getElem_zip
    exact hz ▸ List.getElem_mem hjz
  have hmapfst : (impl.localAtomSet.localIndex.zip
      (calculateForces impl inp out).impl.forces).map Prod.fst =
      impl.localAtomSet.localIndex :=
    List.map_fst_zip _ _ (by omega)
  exact addForceContributions_mem _ _ _ _ _ hmem (hmapfst.symm ▸ hnd) mu

end

end DensityFitting

namespace DensityFitting

noncomputable section

/-- Witness for C3 at a concrete one-atom worker, first list entry, first
force component. -/
theorem claim_C3_witness :
    (0 : ℕ) < exampleImpl.localAtomSet.numAtomsLocal ∧
      exampleImpl.localAtomSet.localIndex.Nodup ∧
      (calculateForces exampleImpl exampleInput exampleOutput).output.force
          (exampleImpl.localAtomSet.localIndex.getD 0 0) 0 =
        exampleOutput.force (exampleImpl.localAtomSet.localIndex.getD 0 0) 0 +
          exampleImpl.parameters.forceConstant *
            ((calculateForces exampleImpl exampleInput exampleOutput).impl.forces.getD 0
              fun _ => 0) 0 := by
  have hj : (0 : ℕ) < exampleImpl.localAtomSet.numAtomsLocal := by
    simp [exampleImpl_numAtomsLocal]
  have hnd : exampleImpl.localAtomSet.localIndex.Nodup := by
    simp [exampleImpl, Impl.init, oneAtomSet]
  exact ⟨hj, hnd,
    claim_C3_force_index_correspondence exampleImpl exampleInput exampleOutput 0 hj hnd 0⟩

lemma workerPoints_append (t : TranslateAndScale) (x : ℕ → RVec) (amp : ℕ → ℝ)
    (s₁ s₂ : List ℕ) :
    workerPoints t x amp (s₁ ++ s₂) = workerPoints t x amp s₁ ++ workerPoints t x amp s₂ := by
  simp only [workerPoints, List.map_append]
  exact List.zip_append (by simp)

lemma workerPoints_flatten (t : TranslateAndScale) (x : ℕ → RVec) (amp : ℕ → ℝ)
    (slices : List (List ℕ)) :
    workerPoints t x amp slices.flatten = (slices.map (workerPoints t x amp)).flatten := by
  induction slices with
  | nil => rfl
  | cons sl slices ih => simp [List.flatten, workerPoints_append, ih]

lemma allWorkersDensity_eq_sum (p : DensityFittingParameters) (ref : DensityData)
    (t : TranslateAndScale) (x : ℕ → RVec) (amp : ℕ → ℝ) {n : ℕ}
    (slices : Fin n → List ℕ) (c : Cell) :
    allWorkersDensity p ref t x amp slices c =
      ∑ w' : Fin n,
        rasterizedDensity ref.extents (kernelOf p t) (workerPoints t x amp (slices w')) c := by
  rw [allWorkersDensity, workerPoints_flatten, ← rasterizedDensity_join]
  rw [List.map_ofFn, List.map_ofFn, List.sum_ofFn]
  rfl

lemma calculateForces_term_eq (impl : Impl) (inp : ForceProviderInput)
    (out : ForceProviderOutput) (h : impl.localAtomSet.localIndex ≠ []) :
    (calculateForces impl inp out).output.term F_COM_PULL =
      out.term F_COM_PULL +
        -(impl.measure.similarity (calculateForces impl inp out).impl.gaussTransform.data) *
          impl.parameters.forceConstant := by
  simp [calculateForces, LocalAtomSet.numAtomsLocal, h]

lemma calculateForces_data_eq_par (impl : Impl) (inp : ForceProviderInput)
    (out : ForceProviderOutput) (h : impl.localAtomSet.localIndex ≠ [])
    (hp : inp.par = true) (c : Cell) :
    (calculateForces impl inp out).impl.gaussTransform.data c =
      rasterizedDensity impl.gaussTransform.extents impl.gaussTransform.shape
        ((impl.localAtomSet.localIndex.map fun index =>
            impl.transformationToDensityLattice.apply (inp.x index)).zip
          (impl.localAtomSet.localIndex.map inp.amplitude)) c + inp.peerDensity c := by
  simp [calculateForces, LocalAtomSet.numAtomsLocal, h, hp, rasterizedDensity,
    GaussTransform3D.setZero]

/-- Claim C10: in a parallel run, every worker holding at least one local
restrained particle adds the full, undivided energy
`-similarity * forceConstant` — the similarity evaluated on the complete
density buffer obtained from all slices, identical on every worker — into
its own energy accumulator. -/
theorem claim_C10_full_energy_per_worker (p : DensityFittingParameters) (ref : DensityData)
    (t : TranslateAndScale) (x : ℕ → RVec) (amp : ℕ → ℝ) {n : ℕ}
    (slices : Fin n → List ℕ) (w : Fin n) (hw : slices w ≠ [])
    (out : ForceProviderOutput) :
    (calculateForces (Impl.init p ref t ⟨slices w⟩)
        (multiWorkerInput p ref t x amp slices w) out).output.term F_COM_PULL =
      out.term F_COM_PULL +
        -((⟨ref.extents, ref.data⟩ : DensitySimilarityMeasure).similarity
            (allWorkersDensity p ref t x amp slices)) * p.forceConstant := by
  have hne : (Impl.init p ref t ⟨slices w⟩).localAtomSet.localIndex ≠ [] := hw
  rw [calculateForces_term_eq _ _ _ hne]
  have hdata : (calculateForces (Impl.init p ref t ⟨slices w⟩)
      (multiWorkerInput p ref t x amp slices w) out).impl.gaussTransform.data =
      allWorkersDensity p ref t x amp slices := by
    funext c
    rw [calculateForces_data_eq_par _ _ _ hne rfl c, allWorkersDensity_eq_sum]
    have hown : rasterizedDensity (Impl.init p ref t ⟨slices w⟩).gaussTransform.extents
        (Impl.init p ref t ⟨slices w⟩).gaussTransform.shape
        (((Impl.init p ref t ⟨slices w⟩).localAtomSet.localIndex.map fun index =>
            (Impl.init p ref t ⟨slices w⟩).transformationToDensityLattice.apply
              ((multiWorkerInput p ref t x amp slices w).x index)).zip
          ((Impl.init p ref t ⟨slices w⟩).localAtomSet.localIndex.map
            (multiWorkerInput p ref t x amp slices w).amplitude)) c =
        rasterizedDensity ref.extents (kernelOf p t) (workerPoints t x amp (slices w)) c := rfl
    rw [hown]
    exact Finset.add_sum_erase Finset.univ
      (fun w' => rasterizedDensity ref.extents (kernelOf p t)
        (workerPoints t x amp (slices w')) c) (Finset.mem_univ w)
  rw [hdata]
  rfl

end

end DensityFitting

namespace DensityFitting

noncomputable section

/-- Witness for C10: two workers, one atom each, first worker. -/
theorem claim_C10_witness :
    exampleSlices 0 ≠ [] ∧
      (calculateForces (Impl.init exampleParams exampleRef exampleTransform ⟨exampleSlices 0⟩)
          (multiWorkerInput exampleParams exampleRef exampleTransform exampleInput.x
            exampleInput.amplitude exampleSlices 0) exampleOutput).output.term F_COM_PULL =
        exampleOutput.term F_COM_PULL +
          -((⟨exampleRef.extents, exampleRef.data⟩ : DensitySimilarityMeasure).similarity
              (allWorkersDensity exampleParams exampleRef exampleTransform exampleInput.x
                exampleInput.amplitude exampleSlices)) * exampleParams.forceConstant := by
  have hw : exampleSlices 0 ≠ [] := by simp [exampleSlices]
  exact ⟨hw, claim_C10_full_energy_per_worker exampleParams exampleRef exampleTransform
    exampleInput.x exampleInput.amplitude exampleSlices 0 hw exampleOutput⟩

end

end DensityFitting

namespace DensityFitting

noncomputable section

lemma spreadGauss_pos (sh : Shape) (r : RVec) (c : Cell) : 0 < spreadGauss sh r c :=
  Finset.prod_pos fun _ _ => Real.exp_pos _

lemma spreadValue_of_inTruncation (sh : Shape) (r : RVec) (c : Cell)
    (h : inTruncation sh r c) : spreadValue sh r c = spreadGauss sh r c := by
  unfold spreadValue
  exact if_pos h

lemma spreadDeriv_of_inTruncation (sh : Shape) (r : RVec) (c : Cell) (mu : Fin 3)
    (h : inTruncation sh r c) :
    spreadDeriv sh r c mu = ((c mu : ℝ) - r mu) / sh.sigma mu ^ 2 * spreadGauss sh r c := by
  unfold spreadDeriv
  exact if_pos h

lemma hasDerivAt_gaussFactor (s τ cx σ : ℝ) (x₀ : ℝ) :
    HasDerivAt (fun tt => Real.exp (-(s * (tt + τ) - cx) ^ 2 / (2 * σ ^ 2)))
      (s * ((cx - (s * (x₀ + τ))) / σ ^ 2) *
        Real.exp (-(s * (x₀ + τ) - cx) ^ 2 / (2 * σ ^ 2))) x₀ := by
  have hw : HasDerivAt (fun tt : ℝ => s * (tt + τ) - cx) s x₀ := by
    simpa using (((hasDerivAt_id x₀).add_const τ).const_mul s).sub_const cx
  have hu : HasDerivAt (fun tt : ℝ => -(s * (tt + τ) - cx) ^ 2 / (2 * σ ^ 2))
      (-(2 * (s * (x₀ + τ) - cx) ^ 1 * s) / (2 * σ ^ 2)) x₀ :=
    ((hw.pow 2).neg).div_const (2 * σ ^ 2)
  have h := hu.exp
  have hval : Real.exp (-(s * (x₀ + τ) - cx) ^ 2 / (2 * σ ^ 2)) *
      (-(2 * (s * (x₀ + τ) - cx) ^ 1 * s) / (2 * σ ^ 2)) =
      s * ((cx - (s * (x₀ + τ))) / σ ^ 2) *
        Real.exp (-(s * (x₀ + τ) - cx) ^ 2 / (2 * σ ^ 2)) := by
    rcases eq_or_ne σ 0 with hσ | hσ
    · simp [hσ]
    · field_simp
      ring
  exact hval ▸ h

end

end DensityFitting

namespace DensityFitting

noncomputable section

lemma hasDerivAt_spreadGauss (sh : Shape) (s τ X : RVec) (mu : Fin 3) (c : Cell) (x₀ : ℝ) :
    HasDerivAt (fun tt => spreadGauss sh (fun i => s i * (Function.update X mu tt i + τ i)) c)
      (s mu * (((c mu : ℝ) - s mu * (x₀ + τ mu)) / sh.sigma mu ^ 2) *
        spreadGauss sh (fun i => s i * (Function.update X mu x₀ i + τ i)) c) x₀ := by
  set C := ∏ i ∈ Finset.univ.erase mu,
    Real.exp (-(s i * (X i + τ i) - (c i : ℝ)) ^ 2 / (2 * sh.sigma i ^ 2)) with hC
  have funEq : ∀ tt, spreadGauss sh (fun i => s i * (Function.update X mu tt i + τ i)) c =
      Real.exp (-(s mu * (tt + τ mu) - (c mu : ℝ)) ^ 2 / (2 * sh.sigma mu ^ 2)) * C := by
    intro tt
    rw [spreadGauss, ← Finset.mul_prod_erase Finset.univ _ (Finset.mem_univ mu)]
    congr 1
    · rw [Function.update_same]
    · exact Finset.prod_congr rfl fun i hi => by
        rw [Function.update_noteq (Finset.mem_erase.mp hi).1]
  have h1 := (hasDerivAt_gaussFactor (s mu) (τ mu) (c mu) (sh.sigma mu) x₀).mul_const C
  have hfun : (fun tt => spreadGauss sh (fun i => s i * (Function.update X mu tt i + τ i)) c) =
      fun tt => Real.exp (-(s mu * (tt + τ mu) - (c mu : ℝ)) ^ 2 / (2 * sh.sigma mu ^ 2)) * C :=
    funext funEq
  rw [hfun, funEq x₀]
  convert h1 using 1
  ring

lemma spreadValue_eventuallyEq (sh : Shape) (s τ X : RVec) (mu : Fin 3) (c : Cell) (x₀ : ℝ)
    (hc : ∀ i, |s i * (Function.update X mu x₀ i + τ i) - (c i : ℝ)| <
      sh.nSigma * sh.sigma i) :
    (fun tt => spreadValue sh (fun i => s i * (Function.update X mu tt i + τ i)) c) =ᶠ[nhds x₀]
      fun tt => spreadGauss sh (fun i => s i * (Function.update X mu tt i + τ i)) c := by
  have hev : ∀ᶠ tt in nhds x₀, ∀ i,
      |s i * (Function.update X mu tt i + τ i) - (c i : ℝ)| < sh.nSigma * sh.sigma i := by
    rw [Filter.eventually_all]
    intro i
    rcases eq_or_ne i mu with rfl | hne
    · have hcont : Filter.Tendsto (fun tt => |s i * (tt + τ i) - (c i : ℝ)|) (nhds x₀)
          (nhds (|s i * (x₀ + τ i) - (c i : ℝ)|)) :=
        (((continuous_const.mul (continuous_id.add continuous_const)).sub
          continuous_const).abs).continuousAt
      have hlt := hcont.eventually_lt_const (by simpa [Function.update_same] using hc i)
      exact hlt.mono fun tt htt => by simpa [Function.update_same] using htt
    · filter_upwards with tt
      rw [Function.update_noteq hne]
      have h2 := hc i
      rwa [Function.update_noteq hne] at h2
  exact hev.mono fun tt htt =>
    spreadValue_of_inTruncation _ _ _ fun i => (htt i).le

lemma hasDerivAt_spreadValue (sh : Shape) (s τ X : RVec) (mu : Fin 3) (c : Cell) (x₀ : ℝ)
    (hc : ∀ i, |s i * (Function.update X mu x₀ i + τ i) - (c i : ℝ)| <
      sh.nSigma * sh.sigma i) :
    HasDerivAt (fun tt => spreadValue sh (fun i => s i * (Function.update X mu tt i + τ i)) c)
      (s mu * spreadDeriv sh (fun i => s i * (Function.update X mu x₀ i + τ i)) c mu) x₀ := by
  have h := (spreadValue_eventuallyEq sh s τ X mu c x₀ hc).hasDerivAt_iff.mpr
    (hasDerivAt_spreadGauss sh s τ X mu c x₀)
  have hval : spreadDeriv sh (fun i => s i * (Function.update X mu x₀ i + τ i)) c mu =
      (((c mu : ℝ) - s mu * (x₀ + τ mu)) / sh.sigma mu ^ 2) *
        spreadGauss sh (fun i => s i * (Function.update X mu x₀ i + τ i)) c := by
    rw [spreadDeriv_of_inTruncation _ _ _ _ fun i => (hc i).le, Function.update_same]
  rw [hval]
  convert h using 1
  ring

end

end DensityFitting

namespace DensityFitting

noncomputable section

lemma hasDerivAt_list_sum {α : Type} (l : List α) (f : α → ℝ → ℝ) (d : α → ℝ) (x₀ : ℝ)
    (h : ∀ a ∈ l, HasDerivAt (f a) (d a) x₀) :
    HasDerivAt (fun tt => (l.map fun a => f a tt).sum) (l.map d).sum x₀ := by
  induction l with
  | nil => simpa using hasDerivAt_const x₀ (0 : ℝ)
  | cons a l ih =>
    simp only [List.map_cons, List.sum_cons]
    exact (h a (List.mem_cons_self a l)).add (ih fun b hb => h b (List.mem_cons_of_mem a hb))

lemma list_sum_map_single (l : List ℕ) (g : ℕ) (v : ℝ) (hg : g ∈ l) (hnd : l.Nodup) :
    (l.map fun idx => if idx = g then v else 0).sum = v := by
  induction l with
  | nil => simp at hg
  | cons a l ih =>
    rw [List.nodup_cons] at hnd
    rcases List.mem_cons.mp hg with rfl | hmem
    · have hz : (l.map fun idx => if idx = g then v else 0).sum = 0 :=
        List.sum_eq_zero fun x hx => by
          obtain ⟨idx, hidx, rfl⟩ := List.mem_map.mp hx
          rw [if_neg]
          intro hcontra
          exact hnd.1 (hcontra ▸ hidx)
      simp [hz]
    · have hne : a ≠ g := by
        intro hcontra
        exact hnd.1 (hcontra ▸ hmem)
      simp only [List.map_cons, List.sum_cons, if_neg hne, zero_add]
      exact ih hmem hnd.2

lemma addedEnergy_eq (impl : Impl) (inp : ForceProviderInput) (out : ForceProviderOutput)
    (h : impl.localAtomSet.localIndex ≠ []) :
    addedEnergy impl inp out =
      -(impl.measure.similarity (calculateForces impl inp out).impl.gaussTransform.data) *
        impl.parameters.forceConstant := by
  rw [addedEnergy, calculateForces_term_eq _ _ _ h]
  ring

open Classical in
lemma calculateForces_data_eq (impl : Impl) (inp : ForceProviderInput)
    (out : ForceProviderOutput) (h : impl.localAtomSet.localIndex ≠ []) (c : Cell) :
    (calculateForces impl inp out).impl.gaussTransform.data c =
      rasterizedDensity impl.gaussTransform.extents impl.gaussTransform.shape
        ((impl.localAtomSet.localIndex.map fun index =>
            impl.transformationToDensityLattice.apply (inp.x index)).zip
          (impl.localAtomSet.localIndex.map inp.amplitude)) c +
        (if inp.par then inp.peerDensity c else 0) := by
  by_cases hp : inp.par <;>
    simp [calculateForces, LocalAtomSet.numAtomsLocal, h, hp, rasterizedDensity,
      GaussTransform3D.setZero]

end

end DensityFitting

namespace DensityFitting

noncomputable section

open Classical in
lemma energyAlong_eq (p : DensityFittingParameters) (ref : DensityData)
    (t : TranslateAndScale) (las : LocalAtomSet) (inp : ForceProviderInput)
    (out : ForceProviderOutput) (g : ℕ) (mu : Fin 3) (h : las.localIndex ≠ []) :
    energyAlong (Impl.init p ref t las) inp out g mu = fun tt =>
      -((∑ c ∈ cellSet ref.extents,
          ((las.localIndex.map fun idx =>
              inp.amplitude idx *
                spreadValue (kernelOf p t)
                  (t.apply (perturbPositions inp.x g mu tt idx)) c).sum +
            (if inp.par then inp.peerDensity c else 0)) * ref.data c) /
        (numVoxels ref.extents : ℝ)) * p.forceConstant := by
  funext tt
  have h' : (Impl.init p ref t las).localAtomSet.localIndex ≠ [] := h
  show addedEnergy (Impl.init p ref t las) (perturbInput inp g mu tt) out = _
  rw [addedEnergy_eq _ _ _ h', DensitySimilarityMeasure.similarity]
  have hsum : ∑ c ∈ cellSet (Impl.init p ref t las).measure.extents,
      (calculateForces (Impl.init p ref t las) (perturbInput inp g mu tt) out).impl.gaussTransform.data c *
        (Impl.init p ref t las).measure.ref c =
      ∑ c ∈ cellSet ref.extents,
        ((las.localIndex.map fun idx =>
            inp.amplitude idx *
              spreadValue (kernelOf p t)
                (t.apply (perturbPositions inp.x g mu tt idx)) c).sum +
          (if inp.par then inp.peerDensity c else 0)) * ref.data c := by
    refine Finset.sum_congr rfl fun c _ => ?_
    rw [calculateForces_data_eq _ _ _ h' c, rasterizedDensity_eq_sum, List.zip_map',
      List.map_map]
    rfl
  rw [hsum]
  rfl

end

end DensityFitting

namespace DensityFitting

noncomputable section

open Classical in
lemma energy_hasDerivAt (p : DensityFittingParameters) (ref : DensityData)
    (t : TranslateAndScale) (las : LocalAtomSet) (inp : ForceProviderInput)
    (out : ForceProviderOutput) (j : ℕ) (hj : j < las.localIndex.length)
    (hnd : las.localIndex.Nodup) (mu : Fin 3)
    (hstrict : ∀ c ∈ cellSet ref.extents, ∀ i,
      |t.apply (inp.x (las.localIndex.getD j 0)) i - (c i : ℝ)| <
        (kernelOf p t).nSigma * (kernelOf p t).sigma i) :
    HasDerivAt
      (energyAlong (Impl.init p ref t las) inp out (las.localIndex.getD j 0) mu)
      (-(p.forceConstant * (t.scale mu *
        DensityFittingForce.evaluateForce ⟨kernelOf p t⟩ ref.extents
          (t.apply (inp.x (las.localIndex.getD j 0)),
            inp.amplitude (las.localIndex.getD j 0))
          (fun c => ref.data c / (numVoxels ref.extents : ℝ)) mu)))
      (inp.x (las.localIndex.getD j 0) mu) := by
  set g := las.localIndex.getD j 0 with hg
  set sh := kernelOf p t with hsh
  set x₀ := inp.x g mu with hx₀
  have hmemg : g ∈ las.localIndex := by
    rw [hg, List.getD_eq_getElem _ _ hj]
    exact List.getElem_mem hj
  have h : las.localIndex ≠ [] := List.ne_nil_of_mem hmemg
  rw [energyAlong_eq p ref t las inp out g mu h]
  -- derivative of each per-atom list entry, at each cell
  have hentry : ∀ c ∈ cellSet ref.extents, ∀ idx ∈ las.localIndex,
      HasDerivAt (fun tt => inp.amplitude idx *
          spreadValue sh (t.apply (perturbPositions inp.x g mu tt idx)) c)
        (if idx = g then
          inp.amplitude g * (t.scale mu * spreadDeriv sh (t.apply (inp.x g)) c mu)
        else 0) x₀ := by
    intro c hc idx _
    by_cases heq : idx = g
    · rw [heq, if_pos rfl]
      have hfg : (fun tt => inp.amplitude g *
            spreadValue sh (t.apply (perturbPositions inp.x g mu tt g)) c) =
          fun tt => inp.amplitude g *
            spreadValue sh
              (fun i => t.scale i * (Function.update (inp.x g) mu tt i + t.translation i)) c := by
        funext tt
        rw [perturbPositions, Function.update_same]
        rfl
      rw [hfg]
      have hcc : ∀ i, |t.scale i * (Function.update (inp.x g) mu x₀ i + t.translation i) -
          (c i : ℝ)| < sh.nSigma * sh.sigma i := by
        intro i
        rw [hx₀, Function.update_eq_self mu (inp.x g)]
        exact hstrict c hc i
      have hd := (hasDerivAt_spreadValue sh t.scale t.translation (inp.x g) mu c x₀
        hcc).const_mul (inp.amplitude g)
      rw [hx₀, Function.update_eq_self mu (inp.x g)] at hd
      have hr : (fun i => t.scale i * (inp.x g i + t.translation i)) = t.apply (inp.x g) :=
        rfl
      rw [hr] at hd
      convert hd using 1
    · rw [if_neg heq]
      have hne := heq
      have hfix : (fun tt => inp.amplitude idx *
            spreadValue sh (t.apply (perturbPositions inp.x g mu tt idx)) c) =
          fun _ => inp.amplitude idx * spreadValue sh (t.apply (inp.x idx)) c := by
        funext tt
        rw [perturbPositions, Function.update_noteq hne]
      rw [hfix]
      exact hasDerivAt_const x₀ _
  -- derivative of the per-cell term
  have hcell : ∀ c ∈ cellSet ref.extents,
      HasDerivAt (fun tt =>
          ((las.localIndex.map fun idx => inp.amplitude idx *
              spreadValue sh (t.apply (perturbPositions inp.x g mu tt idx)) c).sum +
            (if inp.par then inp.peerDensity c else 0)) * ref.data c)
        ((inp.amplitude g * (t.scale mu * spreadDeriv sh (t.apply (inp.x g)) c mu)) *
          ref.data c) x₀ := by
    intro c hc
    have hl := hasDerivAt_list_sum las.localIndex
      (fun idx tt => inp.amplitude idx *
        spreadValue sh (t.apply (perturbPositions inp.x g mu tt idx)) c)
      (fun idx => if idx = g then
        inp.amplitude g * (t.scale mu * spreadDeriv sh (t.apply (inp.x g)) c mu)
      else 0) x₀ (hentry c hc)
    rw [list_sum_map_single _ _ _ hmemg hnd] at hl
    exact (hl.add_const _).mul_const (ref.data c)
  have hS := HasDerivAt.sum hcell
  have hE := ((hS.div_const (numVoxels ref.extents : ℝ)).neg).mul_const p.forceConstant
  convert hE using 1
  simp only [DensityFittingForce.evaluateForce, Finset.mul_sum]
  rw [neg_mul, neg_inj, div_mul_eq_mul_div, Finset.sum_mul, Finset.sum_div]
  exact Finset.sum_congr rfl fun c _ => by ring

end

end DensityFitting

namespace DensityFitting

noncomputable section

lemma inverseIgnoringZeroScale_of_ne (s : ScaleCoordinates) (v : RVec) (i : Fin 3)
    (h : s.scale i ≠ 0) : s.inverseIgnoringZeroScale v i = v i / s.scale i := by
  unfold ScaleCoordinates.inverseIgnoringZeroScale
  exact if_neg h

lemma calculateForces_forces_eq (impl : Impl) (inp : ForceProviderInput)
    (out : ForceProviderOutput) (h : impl.localAtomSet.localIndex ≠ []) :
    (calculateForces impl inp out).impl.forces =
      simulationForces impl
        (impl.localAtomSet.localIndex.map fun index =>
          impl.transformationToDensityLattice.apply (inp.x index))
        (impl.localAtomSet.localIndex.map inp.amplitude)
        (fun c => impl.measure.ref c / (numVoxels impl.measure.extents : ℝ)) := by
  simp only [calculateForces, LocalAtomSet.numAtomsLocal, List.length_eq_zero, h,
    if_neg h]
  rfl

lemma simulationForces_getD (impl : Impl) (T : List RVec) (A : List ℝ) (d : Density)
    (j : ℕ) (hT : j < T.length) (hA : j < A.length) :
    (simulationForces impl T A d).getD j (fun _ => 0) =
      impl.transformationToDensityLattice.scaleOperationOnly.inverseIgnoringZeroScale
        (impl.densityFittingForce.evaluateForce impl.measure.extents
          (T.getD j (fun _ => 0), A.getD j 0) d) := by
  have hlen : j < (simulationForces impl T A d).length := by
    simp only [simulationForces, List.length_map, List.length_zip]
    omega
  have hz : j < (T.zip A).length := by
    rw [List.length_zip]
    omega
  rw [List.getD_eq_getElem _ _ hlen, List.getD_eq_getElem _ _ hT, List.getD_eq_getElem _ _ hA]
  simp [simulationForces, List.getElem_zip]

lemma calculateForces_forces_getD (p : DensityFittingParameters) (ref : DensityData)
    (t : TranslateAndScale) (las : LocalAtomSet) (inp : ForceProviderInput)
    (out : ForceProviderOutput) (j : ℕ) (hj : j < las.localIndex.length) :
    (calculateForces (Impl.init p ref t las) inp out).impl.forces.getD j (fun _ => 0) =
      t.scaleOperationOnly.inverseIgnoringZeroScale
        (DensityFittingForce.evaluateForce ⟨kernelOf p t⟩ ref.extents
          (t.apply (inp.x (las.localIndex.getD j 0)),
            inp.amplitude (las.localIndex.getD j 0))
          (fun c => ref.data c / (numVoxels ref.extents : ℝ))) := by
  have h : las.localIndex ≠ [] := List.ne_nil_of_length_pos (by omega)
  have h' : (Impl.init p ref t las).localAtomSet.localIndex ≠ [] := h
  rw [calculateForces_forces_eq _ _ _ h']
  have hT : j < ((Impl.init p ref t las).localAtomSet.localIndex.map fun index =>
      (Impl.init p ref t las).transformationToDensityLattice.apply (inp.x index)).length := by
    rw [List.length_map]
    exact hj
  have hA : j < ((Impl.init p ref t las).localAtomSet.localIndex.map inp.amplitude).length := by
    rw [List.length_map]
    exact hj
  rw [simulationForces_getD _ _ _ _ j hT hA]
  have hTg : ((Impl.init p ref t las).localAtomSet.localIndex.map fun index =>
      (Impl.init p ref t las).transformationToDensityLattice.apply (inp.x index)).getD j
        (fun _ => 0) = t.apply (inp.x (las.localIndex.getD j 0)) := by
    rw [List.getD_eq_getElem _ _ hT, List.getElem_map, List.getD_eq_getElem _ _ hj]
    rfl
  have hAg : ((Impl.init p ref t las).localAtomSet.localIndex.map inp.amplitude).getD j 0 =
      inp.amplitude (las.localIndex.getD j 0) := by
    rw [List.getD_eq_getElem _ _ hA, List.getElem_map, List.getD_eq_getElem _ _ hj]
    rfl
  rw [hTg, hAg]
  rfl

lemma cellSet_one : cellSet (fun _ => 1) = {fun _ => 0} := by
  ext c
  simp [cellSet, Fintype.mem_piFinset, Nat.lt_one_iff, funext_iff]

lemma example_strict : ∀ c ∈ cellSet exampleRef.extents, ∀ i : Fin 3,
    |exampleTransform.apply (exampleInput.x 0) i - (c i : ℝ)| <
      (kernelOf exampleParams exampleTransform).nSigma *
        (kernelOf exampleParams exampleTransform).sigma i := by
  have hext : exampleRef.extents = fun _ => 1 := rfl
  rw [hext, cellSet_one]
  intro c hc i
  rw [Finset.mem_singleton] at hc
  subst hc
  have hn : (kernelOf exampleParams exampleTransform).nSigma = 3 := rfl
  have hsig : (kernelOf exampleParams exampleTransform).sigma i = 2 * 1 := rfl
  have happ : exampleTransform.apply (exampleInput.x 0) i = 2 * (examplePos i + 0) := rfl
  rw [hn, hsig, happ]
  fin_cases i <;> norm_num [examplePos]

end

end DensityFitting

namespace DensityFitting

noncomputable section

/-- Claim C1, amended: with a non-zero scale factor on the axis, the per-particle
force the evaluation accumulates equals the negative gradient of the energy
contribution divided by the square of that axis's scale factor — that is,
`scale^2 * appliedForce` is the negative derivative of the energy with respect
to the particle's simulation-space coordinate; the applied force coincides
with the negative gradient exactly when the axis scale factor is 1.  The
truncation window is required not to clip any lattice cell at the evaluated
position, which is the regime in which the kernel is differentiable. -/
theorem claim_C1_amended (p : DensityFittingParameters) (ref : DensityData)
    (t : TranslateAndScale) (las : LocalAtomSet) (inp : ForceProviderInput)
    (out : ForceProviderOutput) (j : ℕ) (mu : Fin 3) (hj : j < las.localIndex.length)
    (hnd : las.localIndex.Nodup) (hs : t.scale mu ≠ 0)
    (hstrict : ∀ c ∈ cellSet ref.extents, ∀ i : Fin 3,
      |t.apply (inp.x (las.localIndex.getD j 0)) i - (c i : ℝ)| <
        (kernelOf p t).nSigma * (kernelOf p t).sigma i) :
    HasDerivAt (energyAlong (Impl.init p ref t las) inp out (las.localIndex.getD j 0) mu)
        (-(t.scale mu ^ 2 * appliedForce (Impl.init p ref t las) inp out j mu))
        (inp.x (las.localIndex.getD j 0) mu) ∧
      (t.scale mu = 1 →
        HasDerivAt (energyAlong (Impl.init p ref t las) inp out (las.localIndex.getD j 0) mu)
          (-(appliedForce (Impl.init p ref t las) inp out j mu))
          (inp.x (las.localIndex.getD j 0) mu)) := by
  have hD := energy_hasDerivAt p ref t las inp out j hj hnd mu hstrict
  have happ : appliedForce (Impl.init p ref t las) inp out j mu =
      p.forceConstant *
        (DensityFittingForce.evaluateForce ⟨kernelOf p t⟩ ref.extents
          (t.apply (inp.x (las.localIndex.getD j 0)),
            inp.amplitude (las.localIndex.getD j 0))
          (fun c => ref.data c / (numVoxels ref.extents : ℝ)) mu / t.scale mu) := by
    rw [appliedForce, calculateForces_forces_getD p ref t las inp out j hj,
      inverseIgnoringZeroScale_of_ne _ _ _ hs]
    rfl
  constructor
  · rw [happ]
    convert hD using 1
    rw [List.getD_eq_getElem _ _ hj]
    field_simp
    ring
  · intro h1
    rw [happ, h1]
    convert hD using 1
    rw [h1, List.getD_eq_getElem _ _ hj]
    ring

end

end DensityFitting

namespace DensityFitting

noncomputable section

/-- Witness for the amended C1 at the concrete one-atom configuration with
scale factor 2. -/
theorem claim_C1_amended_witness :
    ((0 : ℕ) < oneAtomSet.localIndex.length ∧ oneAtomSet.localIndex.Nodup ∧
        exampleTransform.scale 0 ≠ 0) ∧
      HasDerivAt
        (energyAlong (Impl.init exampleParams exampleRef exampleTransform oneAtomSet)
          exampleInput exampleOutput (oneAtomSet.localIndex.getD 0 0) 0)
        (-(exampleTransform.scale 0 ^ 2 *
          appliedForce (Impl.init exampleParams exampleRef exampleTransform oneAtomSet)
            exampleInput exampleOutput 0 0))
        (exampleInput.x (oneAtomSet.localIndex.getD 0 0) 0) := by
  have hj : (0 : ℕ) < oneAtomSet.localIndex.length := by decide
  have hnd : oneAtomSet.localIndex.Nodup := by decide
  have hs : exampleTransform.scale 0 ≠ 0 := by
    have h2 : exampleTransform.scale 0 = 2 := rfl
    rw [h2]
    norm_num
  exact ⟨⟨hj, hnd, hs⟩,
    (claim_C1_amended exampleParams exampleRef exampleTransform oneAtomSet exampleInput
      exampleOutput 0 0 hj hnd hs example_strict).1⟩

end

end DensityFitting

namespace DensityFitting

noncomputable section

lemma example_inTruncation :
    inTruncation (kernelOf exampleParams exampleTransform)
      (exampleTransform.apply (exampleInput.x (oneAtomSet.localIndex.getD 0 0)))
      (fun _ => 0) := by
  intro i
  have hc : (fun _ => (0 : ℕ)) ∈ cellSet exampleRef.extents := by
    rw [show exampleRef.extents = (fun _ => 1) from rfl, cellSet_one]
    exact Finset.mem_singleton_self _
  exact (example_strict (fun _ => 0) hc i).le

lemma example_gridForce_neg :
    DensityFittingForce.evaluateForce ⟨kernelOf exampleParams exampleTransform⟩
      exampleRef.extents
      (exampleTransform.apply (exampleInput.x (oneAtomSet.localIndex.getD 0 0)),
        exampleInput.amplitude (oneAtomSet.localIndex.getD 0 0))
      (fun c => exampleRef.data c / (numVoxels exampleRef.extents : ℝ)) 0 < 0 := by
  rw [DensityFittingForce.evaluateForce]
  rw [show exampleRef.extents = (fun _ => 1) from rfl, cellSet_one, Finset.sum_singleton]
  rw [spreadDeriv_of_inTruncation _ _ _ _ example_inTruncation]
  have hamp : exampleInput.amplitude (oneAtomSet.localIndex.getD 0 0) = 1 := rfl
  have hgrad : exampleRef.data (fun _ => 0) / (numVoxels (fun _ => (1 : ℕ)) : ℝ) = 1 := by
    have hnv : numVoxels (fun _ => (1 : ℕ)) = 1 := by simp [numVoxels]
    rw [hnv]
    norm_num [exampleRef]
  have hr0 : exampleTransform.apply (exampleInput.x (oneAtomSet.localIndex.getD 0 0)) 0 = 1 := by
    have : exampleTransform.apply (exampleInput.x (oneAtomSet.localIndex.getD 0 0)) 0 =
        2 * ((2 : ℝ)⁻¹ + 0) := rfl
    rw [this]
    norm_num
  have hsig : (kernelOf exampleParams exampleTransform).sigma 0 = 2 * 1 := rfl
  have hG := spreadGauss_pos (kernelOf exampleParams exampleTransform)
    (exampleTransform.apply (exampleInput.x (oneAtomSet.localIndex.getD 0 0))) (fun _ => 0)
  rw [hamp, hgrad, hr0, hsig]
  push_cast
  nlinarith [hG]

/-- Claim C1 is false as stated: at a concrete configuration with scale factor 2 on
every axis (one restrained atom, one-cell reference map, unit force constant),
the force accumulated by the evaluation is not the negative derivative of the
accumulated energy with respect to the atom's simulation-space coordinate —
the code divides the grid-space force by the scale factor where the chain
rule multiplies by it, so the result is off by the square of the scale. -/
theorem claim_C1_counterexample :
    ¬ HasDerivAt (energyAlong exampleImpl exampleInput exampleOutput 0 0)
        (-(appliedForce exampleImpl exampleInput exampleOutput 0 0))
        (exampleInput.x 0 0) := by
  intro hcontra
  have hD := energy_hasDerivAt exampleParams exampleRef exampleTransform oneAtomSet
    exampleInput exampleOutput 0 (by decide) (by decide) 0 example_strict
  have hcontra' : HasDerivAt
      (energyAlong (Impl.init exampleParams exampleRef exampleTransform oneAtomSet)
        exampleInput exampleOutput (oneAtomSet.localIndex.getD 0 0) 0)
      (-(appliedForce (Impl.init exampleParams exampleRef exampleTransform oneAtomSet)
          exampleInput exampleOutput 0 0))
      (exampleInput.x (oneAtomSet.localIndex.getD 0 0) 0) := hcontra
  have heq := hcontra'.unique hD
  have hs : exampleTransform.scale 0 ≠ 0 := by
    have h2 : exampleTransform.scale 0 = 2 := rfl
    rw [h2]
    norm_num
  have happ : appliedForce (Impl.init exampleParams exampleRef exampleTransform oneAtomSet)
      exampleInput exampleOutput 0 0 =
      exampleParams.forceConstant *
        (DensityFittingForce.evaluateForce ⟨kernelOf exampleParams exampleTransform⟩
          exampleRef.extents
          (exampleTransform.apply (exampleInput.x (oneAtomSet.localIndex.getD 0 0)),
            exampleInput.amplitude (oneAtomSet.localIndex.getD 0 0))
          (fun c => exampleRef.data c / (numVoxels exampleRef.extents : ℝ)) 0 /
          exampleTransform.scale 0) := by
    rw [appliedForce, calculateForces_forces_getD exampleParams exampleRef exampleTransform
      oneAtomSet exampleInput exampleOutput 0 (by decide),
      inverseIgnoringZeroScale_of_ne _ _ _ hs]
    rfl
  rw [happ] at heq
  have hk : exampleParams.forceConstant = 1 := rfl
  have h2 : exampleTransform.scale 0 = 2 := rfl
  rw [hk, h2] at heq
  have hEV := example_gridForce_neg
  set EV := DensityFittingForce.evaluateForce ⟨kernelOf exampleParams exampleTransform⟩
    exampleRef.extents
    (exampleTransform.apply (exampleInput.x (oneAtomSet.localIndex.getD 0 0)),
      exampleInput.amplitude (oneAtomSet.localIndex.getD 0 0))
    (fun c => exampleRef.data c / (numVoxels exampleRef.extents : ℝ)) 0 with hEVdef
  have : EV = 0 := by linarith
  linarith

end

end DensityFitting
